import Mathlib

/-!
# Verification of the torsiondrive launch CLI and crank server helpers

This file embeds, in Lean, the parts of the repository that the checked
claims concern:

* `load_dihedralfile`, `main` (grid-spacing handling, final result table)
  from `torsiondrive/launch.py`;
* `SimpleServer.make_geomeTRIC_input` and the grid-id string encoding /
  decoding from `crank/tests/test_stack_api.py`.

Python strings are modelled as `List Char`: the Lean `String` functions
corresponding to `str.strip`, `str.split`, `str.lower` and `int(...)` do
not kernel-reduce, so we give structurally recursive models over
character lists and convert string literals with `String.data`.
Exceptions (`ValueError`, `AssertionError`, `NameError`) are modelled with
`Except String`.
-/

namespace TorsionDrive

/-- Python `str.strip()`: remove leading and trailing whitespace. -/
def pyStrip (s : List Char) : List Char :=
  ((s.dropWhile Char.isWhitespace).reverse.dropWhile Char.isWhitespace).reverse

/-- Auxiliary for `pySplitWS`: walk the characters keeping the (reversed)
current word in `acc`. -/
def wordsAux : List Char → List Char → List (List Char)
  | [], acc => if acc.isEmpty then [] else [acc.reverse]
  | c :: cs, acc =>
    if c.isWhitespace then
      if acc.isEmpty then wordsAux cs [] else acc.reverse :: wordsAux cs []
    else wordsAux cs (c :: acc)

/-- Python `str.split()` with no argument: split on runs of whitespace,
producing no empty tokens. -/
def pySplitWS (s : List Char) : List (List Char) := wordsAux s []

/-- Python `str.lower()` (ASCII, which covers all inputs used here). -/
def pyLower (s : List Char) : List Char := s.map Char.toLower

/-- Numeric value of a decimal digit character. -/
def charDigit (c : Char) : Nat := c.toNat - 48

/-- Parse a nonempty all-digit character list as a natural number. -/
def parseNat? (cs : List Char) : Option Nat :=
  if cs ≠ [] ∧ cs.all Char.isDigit then
    some (cs.foldl (fun a c => 10 * a + charDigit c) 0)
  else none

/-- Python `int(token)` on a whitespace-free token: an optional sign
followed by decimal digits. -/
def pyInt? (cs : List Char) : Option Int :=
  match cs with
  | [] => none
  | c :: rest =>
    if c = '-' then (parseNat? rest).map (fun n => -(n : Int))
    else if c = '+' then (parseNat? rest).map (fun n => (n : Int))
    else (parseNat? cs).map (fun n => (n : Int))

/-- Parser state of the line loop of `load_dihedralfile`:
`(zero_based_numbering, dihedral_idxs, dihedral_ranges)`. -/
abbrev PState := Bool × List (List Int) × List (List Int)

/-- One iteration of the `for line in infile` loop of `load_dihedralfile`
(`torsiondrive/launch.py`, lines 61-79). -/
def processLine (line : List Char) (st : PState) : Except String PState :=
  let zb := st.1
  let idxs := st.2.1
  let ranges := st.2.2
  let t := pyStrip line
  match t with
  | [] => .ok st
  | c :: rest =>
    if c = '#' then
      let comment := pyLower (pyStrip rest)
      if comment = "zero_based_numbering".data then .ok (true, idxs, ranges)
      else if comment = "one_based_numbering".data then
        if zb then
          .error "ValueError: Can not specify both zero_based_numbering and one_based_indexing."
        else .ok st
      else .ok st
    else
      let ls := pySplitWS t
      if ls.length = 4 then
        match ls.mapM pyInt? with
        | some ns => .ok (zb, idxs ++ [ns.map (fun i => i - 1)], ranges)
        | none => .error "ValueError: invalid literal for int()"
      else if ls.length = 6 then
        match (ls.take 4).mapM pyInt?, (ls.drop 4).mapM pyInt? with
        | some ns, some vs =>
            .ok (zb, idxs ++ [ns.map (fun i => i - 1)], ranges ++ [vs])
        | _, _ => .error "ValueError: invalid literal for int()"
      else
        .error "ValueError: Input line can not be recognized, should be 4 or 6 numbers"

/-- The whole `for line in infile` loop. -/
def loadLoop : List (List Char) → PState → Except String PState
  | [], st => .ok st
  | l :: rest, st =>
    match processLine l st with
    | .ok st' => loadLoop rest st'
    | .error e => .error e

/-- Model of `load_dihedralfile` (`torsiondrive/launch.py`, lines 10-87),
with the file contents given as its list of lines.

After the loop, the source does (verbatim):
* `if zero_based_numbering: dihedral_idxs = [[i+i for i in d] for d in dihedral_idxs]`
  — note `i+i`, which doubles each (already decremented) index;
* `assert all(i >= 0 for d in dihedral_idxs for i in d)`;
* `assert all(low >= 180 and high <= 180 and low < high for l, r in dihedral_ranges)`
  — the generator binds `l, r` but the condition reads `low` and `high`,
  names that are bound nowhere, so evaluating the generator on the first
  element of a nonempty `dihedral_ranges` raises `NameError`. -/
def load_dihedralfile (lines : List (List Char)) (zero_based_numbering : Bool) :
    Except String (List (List Int) × List (List Int)) :=
  match loadLoop lines (zero_based_numbering, [], []) with
  | .error e => .error e
  | .ok (zb, idxs, ranges) =>
    let idxs := if zb then idxs.map (fun d => d.map (fun i => i + i)) else idxs
    if ¬ (idxs.all (fun d => d.all (fun i => 0 ≤ i))) then
      .error "AssertionError: Dihedral indices error, all should >= 0"
    else if ¬ ranges.isEmpty then
      .error "NameError: name low is not defined"
    else .ok (idxs, ranges)

/-- Python `list * int`: `l * n` concatenates `n` copies of `l`
(as in `args.grid_spacing * grid_dim`). -/
def pyListMul (l : List Int) (n : Nat) : List Int := (List.replicate n l).flatten

/-- The "format grid spacing" block of `main`
(`torsiondrive/launch.py`, lines 135-142). -/
def format_grid_spacing (gs_arg : List Int) (grid_dim : Nat) : Except String (List Int) :=
  if gs_arg.length = grid_dim then .ok gs_arg
  else if gs_arg.length = 1 then .ok (pyListMul gs_arg grid_dim)
  else .error "ValueError: Number of grid_spacing values is not consistent with number of dihedral angles"

/-- Outcome of the configuration phase of `main`: the computed values, and
whether control reached `create_engine` (line 145, after the grid-spacing
block). -/
structure MainOutcome where
  result : Except String (List (List Int) × List (List Int) × List Int)
  engine_created : Bool

/-- The configuration phase of `main` (`torsiondrive/launch.py`,
lines 126-145, with no extra `--constraints` file): parse the dihedral
file, format the grid spacing, and only then create the engine. -/
def main_model (lines : List (List Char)) (zb : Bool) (gs_arg : List Int) : MainOutcome :=
  match load_dihedralfile lines zb with
  | .error e => ⟨.error e, false⟩
  | .ok (idxs, ranges) =>
    match format_grid_spacing gs_arg idxs.length with
    | .error e => ⟨.error e, false⟩
    | .ok gs => ⟨.ok (idxs, ranges, gs), true⟩

/-- The decimal digit character for `d < 10`. -/
def digitChar (d : Nat) : Char := Char.ofNat (48 + d)

/-- Python `str(n)` for a natural number. -/
def renderNat (n : Nat) : List Char :=
  if n = 0 then ['0'] else ((Nat.digits 10 n).map digitChar).reverse

/-- Python `str(i)` / `"%d" % i` for an integer. -/
def renderInt (i : Int) : List Char :=
  if i < 0 then '-' :: renderNat i.natAbs else renderNat i.toNat

/-- Modelled from the spec: the grid-point-string encoder lives in the
scanner/server code, which is not among the provided sources; the spec
says "Grid-point strings are comma-joined integers with no spaces". -/
def encode_grid_id (t : List Int) : List Char :=
  List.intercalate [','] (t.map renderInt)

/-- Grid-point-string decoding, from `SimpleServer.run_crank_scan`
(`crank/tests/test_stack_api.py`, line 50):
`tuple(int(i) for i in grid_id_str.split(','))`. -/
def decode_grid_id (s : List Char) : Option (List Int) :=
  (s.splitOn ',').mapM pyInt?

/-- Python `"%f" % v` for an integer-valued `v` (the grid values handed to
`make_geomeTRIC_input` are parsed with `int`). -/
def renderFloatOfInt (v : Int) : List Char := renderInt v ++ ".000000".data

/-- One constraint line of `SimpleServer.make_geomeTRIC_input`
(`crank/tests/test_stack_api.py`, line 69):
`"dihedral %d %d %d %d %f\n" % (d1+1, d2+1, d3+1, d4+1, v)` without the
trailing newline. -/
def constraintLine (d : Int × Int × Int × Int) (v : Int) : List Char :=
  "dihedral ".data ++ renderInt (d.1 + 1) ++ " ".data ++ renderInt (d.2.1 + 1)
    ++ " ".data ++ renderInt (d.2.2.1 + 1) ++ " ".data ++ renderInt (d.2.2.2 + 1)
    ++ " ".data ++ renderFloatOfInt v

/-- The constraints string built by `SimpleServer.make_geomeTRIC_input`
(`crank/tests/test_stack_api.py`, lines 66-69): `"$set\n"`, then one
`dihedral` line (newline-terminated) per `zip(self.dihedrals, dihedral_values)`
entry. -/
def make_geomeTRIC_constraints (dihedrals : List (Int × Int × Int × Int))
    (values : List Int) : List Char :=
  "$set\n".data ++
    List.flatten ((List.zipWith constraintLine dihedrals values).map (fun l => l ++ ['\n']))

/-- Lexicographic (less-than-or-equal) order on integer tuples: exactly
the order Python `sorted` uses for tuples of ints. -/
def lexLe (a b : List Int) : Prop := a = b ∨ List.Lex (fun x y : Int => x < y) a b

instance lexLe.decRel : DecidableRel lexLe := fun a b => by
  unfold lexLe; infer_instance

instance lexLe.total : IsTotal (List Int) lexLe where
  total a b := by
    rcases trichotomous_of (List.Lex (fun x y : Int => x < y)) a b with h | h | h
    · exact Or.inl (Or.inr h)
    · exact Or.inl (Or.inl h)
    · exact Or.inr (Or.inr h)

instance lexLe.trans : IsTrans (List Int) lexLe where
  trans a b c hab hbc := by
    rcases hab with rfl | hab
    · exact hbc
    · rcases hbc with rfl | hbc
      · exact Or.inr hab
      · exact Or.inr (trans_of (List.Lex (fun x y : Int => x < y)) hab hbc)

/-- Python `sorted(...)` on a list of integer tuples: a sort with respect
to `lexLe`, the lexicographic order that Python uses on tuples of ints. -/
def pySorted (l : List (List Int)) : List (List Int) :=
  List.insertionSort lexLe l

/-- The final result table printed by `main`
(`torsiondrive/launch.py`, lines 157-159): one row
`(grid_id, scanner.grid_energies[grid_id])` per key of `grid_energies`,
iterated in `sorted` order. The energy type is left abstract. -/
def final_table {α : Type} (ge : List (List Int × α)) : List (List Int × Option α) :=
  (pySorted (ge.map Prod.fst)).map (fun k => (k, List.lookup k ge))

/-- What one line of the dihedral file does, independent of the running
parser state. Used to factor proofs about `processLine`. -/
inductive LineAct
  | skip
  | setZero
  | oneBased
  | addD (d : List Int)
  | addDR (d : List Int) (r : List Int)
  | bad (e : String)

/-- Classify a line of the dihedral file by the branch of the loop body of
`load_dihedralfile` that it takes. -/
def lineAct (line : List Char) : LineAct :=
  match pyStrip line with
  | [] => .skip
  | c :: rest =>
    if c = '#' then
      let comment := pyLower (pyStrip rest)
      if comment = "zero_based_numbering".data then .setZero
      else if comment = "one_based_numbering".data then .oneBased
      else .skip
    else
      let ls := pySplitWS (c :: rest)
      if ls.length = 4 then
        match ls.mapM pyInt? with
        | some ns => .addD (ns.map (fun i => i - 1))
        | none => .bad "ValueError: invalid literal for int()"
      else if ls.length = 6 then
        match (ls.take 4).mapM pyInt?, (ls.drop 4).mapM pyInt? with
        | some ns, some vs => .addDR (ns.map (fun i => i - 1)) vs
        | _, _ => .bad "ValueError: invalid literal for int()"
      else .bad "ValueError: Input line can not be recognized, should be 4 or 6 numbers"

/-- Apply the action of a line to the parser state; `processLine` is
exactly `applyAct` of `lineAct` (proved below). -/
def applyAct (act : LineAct) (st : PState) : Except String PState :=
  match act, st with
  | .skip, st => .ok st
  | .setZero, (_, a, b) => .ok (true, a, b)
  | .oneBased, (zb, a, b) =>
      if zb then
        .error "ValueError: Can not specify both zero_based_numbering and one_based_indexing."
      else .ok (zb, a, b)
  | .addD d, (zb, a, b) => .ok (zb, a ++ [d], b)
  | .addDR d r, (zb, a, b) => .ok (zb, a ++ [d], b ++ [r])
  | .bad e, _ => .error e

/-! ## Lemmas about the line loop -/

theorem processLine_eq_applyAct (line : List Char) (st : PState) :
    processLine line st = applyAct (lineAct line) st := by
  obtain ⟨zb, a, b⟩ := st
  simp only [processLine, lineAct]
  cases hts : pyStrip line with
  | nil => simp [applyAct]
  | cons c rest =>
    by_cases hc : c = '#'
    · simp only [if_pos hc]
      by_cases h1 : pyLower (pyStrip rest) = "zero_based_numbering".data
      · simp [h1, applyAct]
      · by_cases h2 : pyLower (pyStrip rest) = "one_based_numbering".data
        · simp [h1, h2, applyAct]
        · simp [h1, h2, applyAct]
    · simp only [if_neg hc]
      by_cases h4 : (pySplitWS (c :: rest)).length = 4
      · cases hm : (pySplitWS (c :: rest)).mapM pyInt? with
        | some ns => simp [h4, hm, applyAct]
        | none => simp [h4, hm, applyAct]
      · by_cases h6 : (pySplitWS (c :: rest)).length = 6
        · cases hm1 : ((pySplitWS (c :: rest)).take 4).mapM pyInt? with
          | some ns =>
            cases hm2 : ((pySplitWS (c :: rest)).drop 4).mapM pyInt? with
            | some vs => simp [h4, h6, hm1, hm2, applyAct]
            | none => simp [h4, h6, hm1, hm2, applyAct]
          | none =>
            cases hm2 : ((pySplitWS (c :: rest)).drop 4).mapM pyInt? with
            | some vs => simp [h4, h6, hm1, hm2, applyAct]
            | none => simp [h4, h6, hm1, hm2, applyAct]
        · simp [h4, h6, applyAct]

theorem applyAct_flag_true {act : LineAct} {a b : List (List Int)} {z : Bool}
    {i r : List (List Int)} (h : applyAct act (true, a, b) = .ok (z, i, r)) :
    z = true := by
  cases act <;> simp_all [applyAct]

theorem applyAct_any_flag {act : LineAct} {a b : List (List Int)} {z : Bool}
    {i r : List (List Int)} (h : applyAct act (true, a, b) = .ok (z, i, r)) (zb : Bool) :
    ∃ z', applyAct act (zb, a, b) = .ok (z', i, r) := by
  cases act <;> simp_all [applyAct]

theorem loadLoop_flag_true (ls : List (List Char)) :
    ∀ a b z i r, loadLoop ls (true, a, b) = .ok (z, i, r) → z = true := by
  induction ls with
  | nil => intro a b z i r h; simp [loadLoop] at h; exact h.1
  | cons l rest ih =>
    intro a b z i r h
    rw [loadLoop] at h
    cases hp : processLine l (true, a, b) with
    | error e => rw [hp] at h; exact absurd h (by simp)
    | ok st' =>
      rw [hp] at h
      obtain ⟨z₁, a₁, b₁⟩ := st'
      rw [processLine_eq_applyAct] at hp
      have hz₁ : z₁ = true := applyAct_flag_true hp
      subst hz₁
      exact ih a₁ b₁ z i r h

theorem loadLoop_any_flag (ls : List (List Char)) :
    ∀ a b z i r, loadLoop ls (true, a, b) = .ok (z, i, r) →
      ∀ zb, ∃ z', loadLoop ls (zb, a, b) = .ok (z', i, r) := by
  induction ls with
  | nil =>
    intro a b z i r h zb
    simp [loadLoop] at h
    exact ⟨zb, by simp [loadLoop, h.2.1, h.2.2]⟩
  | cons l rest ih =>
    intro a b z i r h zb
    rw [loadLoop] at h
    cases hp : processLine l (true, a, b) with
    | error e => rw [hp] at h; exact absurd h (by simp)
    | ok st' =>
      rw [hp] at h
      obtain ⟨z₁, a₁, b₁⟩ := st'
      rw [processLine_eq_applyAct] at hp
      have hz₁ : z₁ = true := applyAct_flag_true hp
      subst hz₁
      obtain ⟨z₂, hz₂⟩ := applyAct_any_flag hp zb
      obtain ⟨z₃, hz₃⟩ := ih a₁ b₁ z i r h z₂
      refine ⟨z₃, ?_⟩
      rw [loadLoop, processLine_eq_applyAct, hz₂]
      exact hz₃


theorem loadLoop_append (xs ys : List (List Char)) (st : PState) :
    loadLoop (xs ++ ys) st =
      match loadLoop xs st with
      | .ok st' => loadLoop ys st'
      | .error e => .error e := by
  induction xs generalizing st with
  | nil => simp [loadLoop]
  | cons l rest ih =>
    simp only [List.cons_append, loadLoop]
    cases processLine l st with
    | ok st' => exact ih st'
    | error e => rfl

theorem processLine_zero_directive (zb : Bool) (a b : List (List Int)) :
    processLine "#zero_based_numbering".data (zb, a, b) = .ok (true, a, b) := rfl

theorem processLine_one_directive (zb : Bool) (a b : List (List Int)) :
    processLine "#one_based_numbering".data (zb, a, b) =
      if zb then
        .error "ValueError: Can not specify both zero_based_numbering and one_based_indexing."
      else .ok (zb, a, b) := by
  cases zb <;> rfl

theorem loadLoop_insert_zero_directive (pre post : List (List Char)) :
    ∀ st z i r,
      loadLoop (pre ++ "#zero_based_numbering".data :: post) st = .ok (z, i, r) →
      z = true ∧ ∃ z', loadLoop (pre ++ post) st = .ok (z', i, r) := by
  induction pre with
  | nil =>
    intro st z i r h
    obtain ⟨zb, a, b⟩ := st
    rw [List.nil_append, loadLoop, processLine_zero_directive] at h
    have hz : z = true := loadLoop_flag_true post a b z i r h
    exact ⟨hz, loadLoop_any_flag post a b z i r h zb⟩
  | cons x pre' ih =>
    intro st z i r h
    rw [List.cons_append, loadLoop] at h
    rw [List.cons_append, loadLoop]
    cases hp : processLine x st with
    | error e => rw [hp] at h; exact absurd h (by simp)
    | ok st₁ =>
      rw [hp] at h
      exact ih st₁ z i r h

/-! ## C1, C2, C3: behaviour of `load_dihedralfile` on concrete files -/

/-- C1: the claim says that with zero-based numbering enabled the returned
atom indices equal the indices written in the file (a shift by 0). The
code instead evaluates `[i+i for i in d]` on the already-decremented
indices: for the file line `1 2 3 4` under `#zero_based_numbering` it
returns `[0, 2, 4, 6]` instead of `[1, 2, 3, 4]`, contradicting the
docstring of `load_dihedralfile` (which promises `[(1,2,3,4)]`). -/
theorem C1_zero_based_doubles_indices :
    load_dihedralfile ["#zero_based_numbering".data, "1 2 3 4".data] false =
      .ok ([[0, 2, 4, 6]], []) := rfl

/-- C2: the claim says a six-number line with documented in-range limits
(`-180 <= low < high <= 180`) is accepted and `[low, high]` is returned in
`dihedral_ranges`. The code instead raises on every such line: its range
assertion reads variables `low`/`high` that are bound nowhere (the
generator binds `l, r`), so Python raises `NameError`; moreover the
written condition `low >= 180` contradicts the documented `low >= -180`.
Evaluating the code on the docstring example line `1 2 3 4 -120 120`
yields the `NameError`, not an accepted range. -/
theorem C2_in_range_limits_raise :
    load_dihedralfile ["1 2 3 4 -120 120".data] false =
      .error "NameError: name low is not defined" := rfl

/-- C3: the claim says that with one-based (default) numbering every
four-number or six-number line yields its four atom indices decremented
by 1 in the returned `dihedral_idxs`. The loop does decrement each index,
but for any file containing a six-number line `load_dihedralfile` never
returns: the malformed range assertion raises `NameError` (see C2), so
the docstring example line `2 3 4 5 -90 150` produces an exception
instead of the promised `[1, 2, 3, 4]` with range `[-90, 150]`. -/
theorem C3_one_based_six_number_line_raises :
    load_dihedralfile ["2 3 4 5 -90 150".data] false =
      .error "NameError: name low is not defined" := rfl

/-! ## C9: the `#zero_based_numbering` directive is position-independent -/

/-- C9: wherever the `#zero_based_numbering` directive appears in the
file, a successful `load_dihedralfile` returns the dihedral lines of the
rest of the file (`raw`, accumulated by the same loop run without the
directive) with the zero-based index conversion applied to every one of
them — including lines before the directive — because the conversion
runs only after the whole file has been read. -/
theorem C9_zero_directive_retroactive (pre post : List (List Char)) (zb : Bool)
    (idxs ranges : List (List Int))
    (h : load_dihedralfile (pre ++ "#zero_based_numbering".data :: post) zb =
      .ok (idxs, ranges)) :
    ∃ z raw, loadLoop (pre ++ post) (zb, [], []) = .ok (z, raw, ranges) ∧
      idxs = raw.map (fun d => d.map (fun i => i + i)) := by
  rw [load_dihedralfile] at h
  cases hl : loadLoop (pre ++ "#zero_based_numbering".data :: post) (zb, [], []) with
  | error e => rw [hl] at h; exact absurd h (by simp)
  | ok st₀ =>
    rw [hl] at h
    obtain ⟨z₀, i₀, r₀⟩ := st₀
    obtain ⟨hz₀, z', hloop⟩ := loadLoop_insert_zero_directive pre post _ z₀ i₀ r₀ hl
    subst hz₀
    simp only [if_true] at h
    split at h
    · exact absurd h (by simp)
    · split at h
      · exact absurd h (by simp)
      · rw [Except.ok.injEq, Prod.mk.injEq] at h
        exact ⟨z', i₀, by rw [hloop, h.2], h.1.symm⟩

/-- C9 witness: a concrete file where the directive comes after the
dihedral line. -/
theorem C9_zero_directive_retroactive_witness :
    ∃ z raw,
      loadLoop (["1 2 3 4".data] ++ []) (false, [], []) = .ok (z, raw, []) ∧
      ([[0, 2, 4, 6]] : List (List Int)) =
        raw.map (fun d => d.map (fun i => i + i)) :=
  C9_zero_directive_retroactive ["1 2 3 4".data] [] false [[0, 2, 4, 6]] [] rfl

/-! ## C10: `#one_based_numbering` errors iff zero-based already enabled -/

/-- C10: if the loop state after the lines `pre` has the zero-based flag
`z`, then a following `#one_based_numbering` comment makes
`load_dihedralfile` raise the clash `ValueError` when `z = true`, and is
accepted silently — the whole run behaves exactly as if the comment line
were absent — when `z = false`. -/
theorem C10_one_based_comment (pre post : List (List Char)) (zb z : Bool)
    (a b : List (List Int))
    (h : loadLoop pre (zb, [], []) = .ok (z, a, b)) :
    (z = true →
      load_dihedralfile (pre ++ "#one_based_numbering".data :: post) zb =
        .error "ValueError: Can not specify both zero_based_numbering and one_based_indexing.") ∧
    (z = false →
      load_dihedralfile (pre ++ "#one_based_numbering".data :: post) zb =
        load_dihedralfile (pre ++ post) zb) := by
  constructor
  · intro hz
    subst hz
    have hfail : loadLoop (pre ++ "#one_based_numbering".data :: post) (zb, [], []) =
        .error "ValueError: Can not specify both zero_based_numbering and one_based_indexing." := by
      rw [loadLoop_append, h]
      show loadLoop ("#one_based_numbering".data :: post) (true, a, b) = _
      rw [loadLoop, processLine_one_directive]
      simp
    rw [load_dihedralfile, hfail]
  · intro hz
    subst hz
    have hins : loadLoop (pre ++ "#one_based_numbering".data :: post) (zb, [], []) =
        loadLoop (pre ++ post) (zb, [], []) := by
      rw [loadLoop_append, h, loadLoop_append, h]
      show loadLoop ("#one_based_numbering".data :: post) (false, a, b) = _
      rw [loadLoop, processLine_one_directive]
      simp
    rw [load_dihedralfile, load_dihedralfile, hins]

/-- C10 witness: after a `#zero_based_numbering` line the flag is `true`,
so a following `#one_based_numbering` line raises the clash error. -/
theorem C10_one_based_comment_witness :
    load_dihedralfile
        (["#zero_based_numbering".data] ++ "#one_based_numbering".data :: []) false =
      .error "ValueError: Can not specify both zero_based_numbering and one_based_indexing." :=
  (C10_one_based_comment ["#zero_based_numbering".data] [] false true [] [] rfl).1 rfl

/-! ## C4: line-level validation of the dihedral file -/

theorem exists_mapM_of_isSome {α β : Type} (f : α → Option β) :
    ∀ l : List α, (∀ w ∈ l, (f w).isSome) → ∃ v, l.mapM f = some v := by
  intro l
  induction l with
  | nil => intro _; exact ⟨[], rfl⟩
  | cons x xs ih =>
    intro h
    obtain ⟨y, hy⟩ := Option.isSome_iff_exists.mp (h x (by simp))
    obtain ⟨v, hv⟩ := ih (fun w hw => h w (by simp [hw]))
    refine ⟨y :: v, ?_⟩
    rw [List.mapM_cons, hy, hv]
    rfl

/-- C4 counterexample: the claim says every line starting with `#` is
accepted, but the comment line `#one_based_numbering` raises a
`ValueError` when the zero-based flag is already set. -/
theorem C4_counterexample :
    (pyStrip "#one_based_numbering".data ≠ [] ∧
      (pyStrip "#one_based_numbering".data).head? = some '#') ∧
    processLine "#one_based_numbering".data (true, [], []) =
      .error "ValueError: Can not specify both zero_based_numbering and one_based_indexing." :=
  ⟨by decide, rfl⟩

/-- C4 (amended): the line loop of `load_dihedralfile` raises an error on
every non-empty, non-comment line whose whitespace-separated token count
is neither 4 nor 6; it accepts every empty line, every line starting with
`#` — except a `#one_based_numbering` comment while zero-based numbering
is already enabled, which raises an error — and every line of exactly 4
or 6 integer tokens. -/
theorem C4_line_loop_validation (line : List Char) (st : PState) :
    (pyStrip line ≠ [] → (pyStrip line).head? ≠ some '#' →
      (pySplitWS (pyStrip line)).length ≠ 4 → (pySplitWS (pyStrip line)).length ≠ 6 →
      ∃ e, processLine line st = .error e) ∧
    (pyStrip line = [] → processLine line st = .ok st) ∧
    (pyStrip line ≠ [] → (pyStrip line).head? = some '#' →
      ¬ (pyLower (pyStrip (pyStrip line).tail) = "one_based_numbering".data ∧ st.1 = true) →
      ∃ st', processLine line st = .ok st') ∧
    (pyStrip line ≠ [] → (pyStrip line).head? = some '#' →
      pyLower (pyStrip (pyStrip line).tail) = "one_based_numbering".data → st.1 = true →
      processLine line st =
        .error "ValueError: Can not specify both zero_based_numbering and one_based_indexing.") ∧
    (pyStrip line ≠ [] → (pyStrip line).head? ≠ some '#' →
      ((pySplitWS (pyStrip line)).length = 4 ∨ (pySplitWS (pyStrip line)).length = 6) →
      (∀ w ∈ pySplitWS (pyStrip line), (pyInt? w).isSome) →
      ∃ st', processLine line st = .ok st') := by
  obtain ⟨zb, a, b⟩ := st
  refine ⟨?_, ?_, ?_, ?_, ?_⟩
  · intro hne hhash h4 h6
    cases hts : pyStrip line with
    | nil => exact absurd hts hne
    | cons c rest =>
      rw [hts] at hhash h4 h6
      have hc : ¬ c = '#' := by intro hceq; exact hhash (by rw [hceq]; rfl)
      simp [processLine, hts, hc, h4, h6]
  · intro he
    simp [processLine, he]
  · intro hne hhash hnot
    cases hts : pyStrip line with
    | nil => exact absurd hts hne
    | cons c rest =>
      rw [hts] at hhash hnot
      have hc : c = '#' := by simpa using hhash
      subst hc
      by_cases h1 : pyLower (pyStrip rest) = "zero_based_numbering".data
      · simp [processLine, hts, h1]
      · by_cases h2 : pyLower (pyStrip rest) = "one_based_numbering".data
        · have hzb : zb = false := by
            cases zb with
            | false => rfl
            | true => exact absurd ⟨by simpa using h2, rfl⟩ hnot
          subst hzb
          simp [processLine, hts, h1, h2]
        · simp [processLine, hts, h1, h2]
  · intro hne hhash hcom hzb
    cases hts : pyStrip line with
    | nil => exact absurd hts hne
    | cons c rest =>
      rw [hts] at hhash hcom
      have hc : c = '#' := by simpa using hhash
      subst hc
      have hcom' : pyLower (pyStrip rest) = "one_based_numbering".data := by
        simpa using hcom
      have h1 : ¬ pyLower (pyStrip rest) = "zero_based_numbering".data := by
        rw [hcom']; decide
      have hzb' : zb = true := hzb
      subst hzb'
      simp [processLine, hts, h1, hcom']
  · intro hne hhash h46 hall
    cases hts : pyStrip line with
    | nil => exact absurd hts hne
    | cons c rest =>
      rw [hts] at hhash hall
      have hc : ¬ c = '#' := by intro hceq; exact hhash (by rw [hceq]; rfl)
      rcases h46 with h4 | h6
      · rw [hts] at h4
        obtain ⟨v, hv⟩ := exists_mapM_of_isSome pyInt? _ hall
        have hv' : List.mapM.loop pyInt? (pySplitWS (c :: rest)) [] = some v := hv
        refine ⟨(zb, a ++ [v.map (fun i => i - 1)], b), ?_⟩
        simp [processLine, hts, hc, h4, hv']
      · rw [hts] at h6
        have h4' : ¬ (pySplitWS (c :: rest)).length = 4 := by omega
        obtain ⟨v1, hv1⟩ := exists_mapM_of_isSome pyInt? ((pySplitWS (c :: rest)).take 4)
          (fun w hw => hall w (List.take_subset _ _ hw))
        obtain ⟨v2, hv2⟩ := exists_mapM_of_isSome pyInt? ((pySplitWS (c :: rest)).drop 4)
          (fun w hw => hall w (List.drop_subset _ _ hw))
        have hv1' : List.mapM.loop pyInt? (List.take 4 (pySplitWS (c :: rest))) [] = some v1 := hv1
        have hv2' : List.mapM.loop pyInt? (List.drop 4 (pySplitWS (c :: rest))) [] = some v2 := hv2
        refine ⟨(zb, a ++ [v1.map (fun i => i - 1)], b ++ [v2]), ?_⟩
        simp [processLine, hts, hc, h4', h6, hv1', hv2']

/-- C4 witness: a three-token line is rejected by the first conjunct of
the amended claim. -/
theorem C4_line_loop_validation_witness :
    ∃ e, processLine "1 2 3".data (false, [], []) = .error e :=
  (C4_line_loop_validation "1 2 3".data (false, [], [])).1
    (by decide) (by decide) (by decide) (by decide)

/-! ## C5: grid-spacing handling in `main` -/

theorem pyListMul_singleton (v : Int) (n : Nat) :
    pyListMul [v] n = List.replicate n v := by
  induction n with
  | zero => rfl
  | succ k ih =>
    unfold pyListMul at ih ⊢
    rw [List.replicate_succ, List.flatten_cons, ih]
    rfl

/-- C5: in `main`, when the number of `--grid_spacing` values equals the
number of dihedrals they are used as given; when exactly one value is
given it is replicated to every dihedral; for any other count `main`
raises a `ValueError` and `create_engine` is never reached. -/
theorem C5_grid_spacing (lines : List (List Char)) (zb : Bool) (gs : List Int)
    (idxs ranges : List (List Int))
    (h : load_dihedralfile lines zb = .ok (idxs, ranges)) :
    (gs.length = idxs.length →
      main_model lines zb gs = ⟨.ok (idxs, ranges, gs), true⟩) ∧
    (gs.length ≠ idxs.length → gs.length = 1 →
      ∃ v, gs = [v] ∧
        main_model lines zb gs = ⟨.ok (idxs, ranges, List.replicate idxs.length v), true⟩) ∧
    (gs.length ≠ idxs.length → gs.length ≠ 1 →
      ∃ e, main_model lines zb gs = ⟨.error e, false⟩) := by
  refine ⟨?_, ?_, ?_⟩
  · intro h1
    simp [main_model, h, format_grid_spacing, h1]
  · intro h1 h2
    obtain ⟨v, rfl⟩ := List.length_eq_one.mp h2
    refine ⟨v, rfl, ?_⟩
    simp only [List.length_singleton] at h1
    simp [main_model, h, format_grid_spacing, h1, pyListMul_singleton]
  · intro h1 h2
    simp [main_model, h, format_grid_spacing, h1, h2]

/-- C5 witness: two grid-spacing values against one dihedral abort before
the engine is created. -/
theorem C5_grid_spacing_witness :
    ∃ e, main_model ["1 2 3 4".data] false [10, 20] = ⟨.error e, false⟩ :=
  (C5_grid_spacing ["1 2 3 4".data] false [10, 20] [[0, 1, 2, 3]] [] rfl).2.2
    (by decide) (by decide)

/-! ## C8: the final table is printed in lexicographic grid-id order -/

/-- C8: the grid ids of the final table printed by `main` are exactly the
keys of `grid_energies` (a permutation) arranged in lexicographic
(integer-tuple) sorted order. -/
theorem C8_final_table_sorted {α : Type} (ge : List (List Int × α)) :
    List.Sorted lexLe ((final_table ge).map Prod.fst) ∧
    ((final_table ge).map Prod.fst).Perm (ge.map Prod.fst) := by
  have hmap : (final_table ge).map Prod.fst = pySorted (ge.map Prod.fst) := by
    unfold final_table
    rw [List.map_map,
      show (Prod.fst ∘ fun k : List Int => (k, List.lookup k ge)) = id from rfl,
      List.map_id]
  rw [hmap]
  exact ⟨List.sorted_insertionSort lexLe _, List.perm_insertionSort lexLe _⟩

/-! ## Decimal rendering and parsing lemmas (for C6 and C7) -/

theorem digitChar_isDigit {d : Nat} (h : d < 10) : (digitChar d).isDigit = true := by
  interval_cases d <;> decide

theorem charDigit_digitChar {d : Nat} (h : d < 10) : charDigit (digitChar d) = d := by
  interval_cases d <;> decide

theorem mem_renderNat {n : Nat} {c : Char} (h : c ∈ renderNat n) : c.isDigit = true := by
  by_cases h0 : n = 0
  · rw [renderNat, if_pos h0] at h
    simp at h
    subst h
    decide
  · rw [renderNat, if_neg h0] at h
    rw [List.mem_reverse] at h
    obtain ⟨d, hd, rfl⟩ := List.mem_map.mp h
    exact digitChar_isDigit (Nat.digits_lt_base (by norm_num) hd)

theorem renderNat_ne_nil (n : Nat) : renderNat n ≠ [] := by
  intro hcon
  by_cases h0 : n = 0
  · rw [renderNat, if_pos h0] at hcon
    simp at hcon
  · rw [renderNat, if_neg h0] at hcon
    rw [List.reverse_eq_nil_iff, List.map_eq_nil_iff] at hcon
    exact Nat.digits_ne_nil_iff_ne_zero.mpr h0 hcon

theorem foldr_ofDigits (L : List Nat) (h : ∀ d ∈ L, d < 10) :
    List.foldr (fun d a => 10 * a + charDigit (digitChar d)) 0 L = Nat.ofDigits 10 L := by
  induction L with
  | nil => simp [Nat.ofDigits]
  | cons d L ih =>
    rw [List.foldr_cons, ih (fun x hx => h x (by simp [hx])), Nat.ofDigits_cons,
      charDigit_digitChar (h d (by simp))]
    ring

theorem parseNat_renderNat (n : Nat) : parseNat? (renderNat n) = some n := by
  by_cases h0 : n = 0
  · subst h0
    rfl
  · have hall : (renderNat n).all Char.isDigit = true :=
      List.all_eq_true.mpr (fun c hc => mem_renderNat hc)
    rw [parseNat?, if_pos ⟨renderNat_ne_nil n, hall⟩]
    refine congrArg some ?_
    rw [renderNat, if_neg h0, List.foldl_reverse, List.foldr_map,
      foldr_ofDigits _ (fun d hd => Nat.digits_lt_base (by norm_num) hd),
      Nat.ofDigits_digits]

theorem pyInt_renderInt (i : Int) : pyInt? (renderInt i) = some i := by
  by_cases hneg : i < 0
  · rw [renderInt, if_pos hneg]
    show pyInt? ('-' :: renderNat i.natAbs) = some i
    simp only [pyInt?, if_pos rfl, parseNat_renderNat, Option.map_some]
    refine congrArg some ?_
    show -(i.natAbs : Int) = i
    omega
  · rw [renderInt, if_neg hneg]
    cases hr : renderNat i.toNat with
    | nil => exact absurd hr (renderNat_ne_nil _)
    | cons c cs =>
      have hdigc : c.isDigit = true := mem_renderNat (by rw [hr]; simp)
      have hcm : ¬ c = '-' := fun hh => by subst hh; exact absurd hdigc (by decide)
      have hcp : ¬ c = '+' := fun hh => by subst hh; exact absurd hdigc (by decide)
      simp only [pyInt?, if_neg hcm, if_neg hcp, ← hr, parseNat_renderNat, Option.map_some]
      refine congrArg some ?_
      show ((i.toNat : Nat) : Int) = i
      omega

theorem mem_renderInt {i : Int} {c : Char} (h : c ∈ renderInt i) :
    c = '-' ∨ c.isDigit = true := by
  by_cases hneg : i < 0
  · rw [renderInt, if_pos hneg] at h
    rcases List.mem_cons.mp h with rfl | h'
    · exact Or.inl rfl
    · exact Or.inr (mem_renderNat h')
  · rw [renderInt, if_neg hneg] at h
    exact Or.inr (mem_renderNat h)

theorem mapM_pyInt_renderInt (t : List Int) :
    (t.map renderInt).mapM pyInt? = some t := by
  induction t with
  | nil => rfl
  | cons x xs ih =>
    rw [List.map_cons, List.mapM_cons, pyInt_renderInt, ih]
    rfl

/-! ## C7: grid-id string encode/decode round trip -/

/-- C7 counterexample: the empty tuple does not round-trip. Python builds
the empty string, whose `split` on a comma yields one empty token, and
`int` of the empty string raises; the model returns `none`, not
`some []`. -/
theorem C7_counterexample :
    decode_grid_id (encode_grid_id []) = none ∧
    decode_grid_id (encode_grid_id []) ≠ some [] := ⟨rfl, by decide⟩

/-- C7 (amended): for every nonempty grid point (an N-tuple of integers,
N ≥ 1), encoding it as a comma-joined integer string and decoding that
string by splitting on commas and parsing each token as an integer gives
back the original tuple. -/
theorem C7_roundtrip (t : List Int) (h : t ≠ []) :
    decode_grid_id (encode_grid_id t) = some t := by
  rw [decode_grid_id, encode_grid_id]
  rw [List.splitOn_intercalate (t.map renderInt) ','
    (by
      intro l hl
      obtain ⟨i, _, rfl⟩ := List.mem_map.mp hl
      intro hc
      rcases mem_renderInt hc with h1 | h2
      · exact absurd h1 (by decide)
      · exact absurd h2 (by decide))
    (by
      intro hcon
      exact h (List.map_eq_nil_iff.mp hcon))]
  exact mapM_pyInt_renderInt t

/-- C7 witness: the round trip at the concrete grid point `(0, -15)`. -/
theorem C7_roundtrip_witness :
    ([0, -15] : List Int) ≠ [] ∧
    decode_grid_id (encode_grid_id [0, -15]) = some [0, -15] :=
  ⟨by decide, C7_roundtrip [0, -15] (by decide)⟩

/-! ## C6: the geomeTRIC constraints string -/

theorem intercalate_cons₂ (s : List Char) (a b : List Char) (t : List (List Char)) :
    List.intercalate s (a :: b :: t) = a ++ s ++ List.intercalate s (b :: t) := by
  simp [List.intercalate, List.intersperse_cons_cons, List.append_assoc]

theorem append_newlines_eq_intercalate (hd : List Char) (ls : List (List Char)) :
    hd ++ ['\n'] ++ List.flatten (ls.map (fun l => l ++ ['\n'])) =
      List.intercalate ['\n'] (hd :: ls ++ [[]]) := by
  induction ls generalizing hd with
  | nil =>
    simp [List.intercalate, List.intersperse]
  | cons l rest ih =>
    rw [List.map_cons, List.flatten_cons, ih l]
    simp only [List.cons_append]
    rw [intercalate_cons₂]

theorem make_constraints_eq_intercalate (ds : List (Int × Int × Int × Int))
    (vs : List Int) :
    make_geomeTRIC_constraints ds vs =
      List.intercalate ['\n'] ("$set".data :: List.zipWith constraintLine ds vs ++ [[]]) := by
  rw [make_geomeTRIC_constraints,
    show ("$set\n".data : List Char) = "$set".data ++ ['\n'] from rfl]
  exact append_newlines_eq_intercalate _ _

theorem newline_not_mem_renderInt {i : Int} : '\n' ∉ renderInt i := by
  intro h
  rcases mem_renderInt h with h1 | h2
  · exact absurd h1 (by decide)
  · exact absurd h2 (by decide)

theorem newline_not_mem_constraintLine (d : Int × Int × Int × Int) (v : Int) :
    '\n' ∉ constraintLine d v := by
  intro h
  simp only [constraintLine, renderFloatOfInt, List.append_assoc, List.mem_append] at h
  rcases h with h | h | h | h | h | h | h | h | h | h | h <;>
    first
      | exact absurd h (by decide)
      | exact newline_not_mem_renderInt h

theorem mem_zipWith {α β γ : Type} {f : α → β → γ} {c : γ} :
    ∀ {l₁ : List α} {l₂ : List β}, c ∈ List.zipWith f l₁ l₂ → ∃ x y, c = f x y := by
  intro l₁
  induction l₁ with
  | nil => intro l₂ h; simp at h
  | cons x xs ih =>
    intro l₂ h
    cases l₂ with
    | nil => simp at h
    | cons y ys =>
      rw [List.zipWith_cons_cons] at h
      rcases List.mem_cons.mp h with rfl | h'
      · exact ⟨x, y, rfl⟩
      · exact ih h'

/-- C6: splitting the constraints string built by `make_geomeTRIC_input`
on newlines yields the `$set` header, then — when the grid value tuple
has one value per stored dihedral — exactly one `dihedral i j k l value`
line per dihedral in order (`constraintLine`, whose atom indices are the
stored zero-based ones each incremented by 1 and whose value is that
dihedral target angle), then the empty chunk left by the final
newline. -/
theorem C6_constraints_structure (ds : List (Int × Int × Int × Int)) (vs : List Int)
    (h : ds.length = vs.length) :
    (make_geomeTRIC_constraints ds vs).splitOn '\n' =
      "$set".data :: (List.zipWith constraintLine ds vs ++ [[]]) ∧
    (List.zipWith constraintLine ds vs).length = ds.length := by
  constructor
  · rw [make_constraints_eq_intercalate]
    refine List.splitOn_intercalate _ '\n' ?_ ?_
    · intro l hl
      rcases List.mem_cons.mp hl with rfl | hl'
      · decide
      · rcases List.mem_append.mp hl' with hz | he
        · obtain ⟨d, v, rfl⟩ := mem_zipWith hz
          exact newline_not_mem_constraintLine d v
        · rw [List.mem_singleton.mp he]
          simp
    · simp
  · rw [List.length_zipWith, h, min_self]

/-- C6 witness: one dihedral `(0,1,2,3)` at grid value `-120` produces the
header plus exactly one constraint line. -/
theorem C6_constraints_structure_witness :
    (make_geomeTRIC_constraints [((0 : Int), (1 : Int), (2 : Int), (3 : Int))]
        [(-120 : Int)]).splitOn '\n' =
      "$set".data ::
        (List.zipWith constraintLine [((0 : Int), (1 : Int), (2 : Int), (3 : Int))]
          [(-120 : Int)] ++ [[]]) ∧
    (List.zipWith constraintLine [((0 : Int), (1 : Int), (2 : Int), (3 : Int))]
        [(-120 : Int)]).length =
      [((0 : Int), (1 : Int), (2 : Int), (3 : Int))].length :=
  C6_constraints_structure [(0, 1, 2, 3)] [-120] rfl
end TorsionDrive
